import Mathlib

/-!
Verification development for the Canadian Helper moderation bot.

The definitions below are shallow embeddings of the Python source files
(utils.py, data_manager.py, commands.py, events.py).  Machine integers are
modelled as Nat / Int (Python integers are unbounded, so no wrap-around is
needed), Python None as Option.none, Python dicts as association lists or
functions to Option, and the in-memory asyncio task registry as an explicit
scheduler state record.  Every definition is written to be executable so
that claims can be checked on concrete inputs.
-/

-- =========================================================================
-- utils.py : duration parsing and formatting
-- =========================================================================

/-- Models Python str.lower() (the source only feeds it ASCII strings). -/
def pyLower (s : String) : String :=
  String.mk (s.data.map Char.toLower)

/-- Digits-to-number accumulation, modelling Python int(amount) on a string
of ASCII digits. -/
def natOfDigits (cs : List Char) : Nat :=
  cs.foldl (fun n c => n * 10 + (c.toNat - 48)) 0

/-- Models the regex match r'^(\d+)(mo|[wdhm])$' from utils.py line 42:
one or more digits followed by exactly one unit token and end of string.
Returns the numeric amount and the unit characters. -/
def splitNumUnit (cs : List Char) : Option (Nat × List Char) :=
  let digits := cs.takeWhile Char.isDigit
  let rest := cs.dropWhile Char.isDigit
  if digits.isEmpty then none
  else if rest = ['m', 'o'] ∨ rest = ['w'] ∨ rest = ['d'] ∨ rest = ['h'] ∨ rest = ['m'] then
    some (natOfDigits digits, rest)
  else none

/-- utils.py lines 36-60, parse_time_duration: lowercase the input;
"indefinite" gives None; otherwise match an amount and a unit
(mo = 30-day months, w = weeks, d = days, h = hours, m = minutes) and
return the amount converted to seconds; anything else gives None. -/
def parse_time_duration (duration_str : String) : Option Nat :=
  let t := pyLower duration_str
  if t = "indefinite" then none
  else
    match splitNumUnit t.toList with
    | none => none
    | some (amount, unit) =>
      if unit = ['m', 'o'] then some (amount * 30 * 24 * 3600)
      else if unit = ['w'] then some (amount * 7 * 24 * 3600)
      else if unit = ['d'] then some (amount * 24 * 3600)
      else if unit = ['h'] then some (amount * 3600)
      else if unit = ['m'] then some (amount * 60)
      else none

/-- utils.py lines 62-83, format_duration: None renders as "indefinite",
otherwise the largest bucket below the value is chosen with floor
division (s, m, h, d, w, mo with a 30-day month). -/
def format_duration : Option Nat → String
  | none => "indefinite"
  | some seconds =>
    if seconds < 60 then toString seconds ++ "s"
    else if seconds < 3600 then toString (seconds / 60) ++ "m"
    else if seconds < 86400 then toString (seconds / 3600) ++ "h"
    else if seconds < 604800 then toString (seconds / 86400) ++ "d"
    else if seconds < 2592000 then toString (seconds / 604800) ++ "w"
    else toString (seconds / 2592000) ++ "mo"

/-- utils.py lines 203-208, validate_punishment_duration: the literal
"indefinite" (case-insensitively) is valid, otherwise validity is
parseability. -/
def validate_punishment_duration (duration_str : String) : Bool :=
  if pyLower duration_str = "indefinite" then true
  else (parse_time_duration duration_str).isSome

-- =========================================================================
-- data_manager.py : extract_rule_number
-- =========================================================================

/-- Left-to-right scan implementing re.findall(r'§+\s*(\d+)', s) taking the
first match (data_manager.py lines 346-353): at a '§' consume the full run
of '§', optional whitespace, then require at least one digit. -/
def extractRuleNumberAux : List Char → Option String
  | [] => none
  | c :: rest =>
    if c = '§' then
      let afterMarks := rest.dropWhile (fun d => d = '§')
      let afterSpace := afterMarks.dropWhile Char.isWhitespace
      let digits := afterSpace.takeWhile Char.isDigit
      if digits.isEmpty then extractRuleNumberAux rest
      else some (String.mk digits)
    else extractRuleNumberAux rest

/-- data_manager.py lines 346-353, extract_rule_number. -/
def extract_rule_number (rule_violation : String) : Option String :=
  extractRuleNumberAux rule_violation.data

-- =========================================================================
-- data_manager.py : the sanctions (logs) store
-- =========================================================================

/-- One entry of the "logs" array in logs.json (shape built by create_log,
data_manager.py lines 102-116).  Keys that later code may add to the dict
(completed_at from mark_punishment_completed, updated_at from
update_log / retract_log) are modelled as Option fields that start out
none. -/
structure Log where
  id : Nat
  log_number : Nat
  guild_id : Nat
  user_id : Nat
  rule_violation : String
  description : String
  punishment : String
  release_time : Option Int
  punishment_start : Int
  moderator_id : Option Nat
  retracted : Bool
  message_id : Option Nat
  created_at : Int
  completed_at : Option Int
  updated_at : Option Int
deriving DecidableEq, Repr

/-- The logs.json document: { "logs": [...], "next_log_id": n }. -/
structure LogsData where
  logs : List Log
  next_log_id : Nat
deriving DecidableEq, Repr

/-- Shared loop shape of data_manager.py's for-loops that mutate the first
matching element and save (update_log, retract_log, mark_punishment_completed,
mark_temp_ban_completed, ...): walk the list, replace the first element
satisfying p by upd of it and report True; report False leaving the list
unchanged when nothing matches. -/
def completeFirst {α : Type} (p : α → Bool) (upd : α → α) : List α → List α × Bool
  | [] => ([], false)
  | x :: rest =>
    if p x then (upd x :: rest, true)
    else
      let r := completeFirst p upd rest
      (x :: r.1, r.2)

/-- The record-lookup condition used throughout data_manager.py:
log_number and guild_id both match. -/
def matchesLogKey (log_number guild_id : Nat) (l : Log) : Bool :=
  l.log_number == log_number && l.guild_id == guild_id

/-- The tuple returned by get_log (data_manager.py lines 136-147), field
for field in source order. -/
structure LogView where
  user_id : Nat
  rule_violation : String
  description : String
  punishment : String
  message_id : Option Nat
  guild_id : Nat
  release_time : Option Int
  punishment_start : Int
  retracted : Bool
  moderator_id : Option Nat
deriving DecidableEq, Repr

/-- Projection of a stored log onto the get_log result tuple. -/
def logView (l : Log) : LogView :=
  ⟨l.user_id, l.rule_violation, l.description, l.punishment, l.message_id,
   l.guild_id, l.release_time, l.punishment_start, l.retracted, l.moderator_id⟩

/-- data_manager.py lines 130-148, get_log: first record matching
(log_number, guild_id), projected to the result tuple. -/
def get_log (log_number guild_id : Nat) : List Log → Option LogView
  | [] => none
  | l :: rest =>
    if matchesLogKey log_number guild_id l then some (logView l)
    else get_log log_number guild_id rest

/-- data_manager.py lines 97-99: the per-guild maximum log number, taken
over this guild's NON-RETRACTED records only, with max(default=0). -/
def guildMaxLogNumber (guild_id : Nat) (logs : List Log) : Nat :=
  ((logs.filter (fun l => l.guild_id == guild_id && !l.retracted)).map
    Log.log_number).foldr max 0

/-- data_manager.py lines 87-128, create_log: allocate
guildMaxLogNumber + 1, append the new entry, bump next_log_id, return the
allocated number.  now stands for the two datetime.now() timestamp reads;
punishment_start defaults to now when not supplied. -/
def create_log (now : Int) (guild_id user_id : Nat)
    (rule_violation description punishment : String)
    (release_time : Option Int) (punishment_start : Option Int)
    (moderator_id : Option Nat) (data : LogsData) : LogsData × Nat :=
  let ps := punishment_start.getD now
  let log_number := guildMaxLogNumber guild_id data.logs + 1
  let entry : Log :=
    { id := data.next_log_id
      log_number := log_number
      guild_id := guild_id
      user_id := user_id
      rule_violation := rule_violation
      description := description
      punishment := punishment
      release_time := release_time
      punishment_start := ps
      moderator_id := moderator_id
      retracted := false
      message_id := none
      created_at := now
      completed_at := none
      updated_at := none }
  ({ logs := data.logs ++ [entry], next_log_id := data.next_log_id + 1 }, log_number)

/-- data_manager.py lines 150-173, update_log: overwrite exactly the
provided (non-None) fields of the first matching record and stamp
updated_at; False when no record matches.  A None release_time argument
leaves the stored release_time untouched (this function cannot clear it). -/
def update_log (now : Int) (log_number guild_id : Nat) (user_id : Option Nat)
    (rule_violation description punishment : Option String)
    (release_time : Option Int) (logs : List Log) : List Log × Bool :=
  completeFirst (matchesLogKey log_number guild_id)
    (fun l =>
      { l with
        user_id := user_id.getD l.user_id
        rule_violation := rule_violation.getD l.rule_violation
        description := description.getD l.description
        punishment := punishment.getD l.punishment
        release_time := match release_time with
          | some rt => some rt
          | none => l.release_time
        updated_at := some now }) logs

/-- data_manager.py lines 175-186, delete_log: physically remove every
record matching (log_number, guild_id); True iff something was removed. -/
def delete_log (log_number guild_id : Nat) (logs : List Log) : List Log × Bool :=
  let remaining := logs.filter (fun l => !(matchesLogKey log_number guild_id l))
  (remaining, remaining.length < logs.length)

/-- data_manager.py lines 188-200, retract_log: set the retracted flag of
the first matching record; when retracting also clear release_time; stamp
updated_at. -/
def retract_log (now : Int) (log_number guild_id : Nat) (retract : Bool)
    (logs : List Log) : List Log × Bool :=
  completeFirst (matchesLogKey log_number guild_id)
    (fun l =>
      { l with
        retracted := retract
        release_time := if retract then none else l.release_time
        updated_at := some now }) logs

/-- data_manager.py lines 230-241, get_punishment_count: number of
non-retracted records of this user in this guild. -/
def get_punishment_count (user_id guild_id : Nat) (logs : List Log) : Nat :=
  (logs.filter (fun l =>
    l.user_id == user_id && l.guild_id == guild_id && !l.retracted)).length

/-- data_manager.py lines 452-468, get_active_punishments: tuples
(user_id, guild_id, release_time, punishment_start) of records with a
non-null release_time that are not retracted, optionally guild-filtered. -/
def get_active_punishments (guild_id : Option Nat) (logs : List Log) :
    List (Nat × Nat × Int × Int) :=
  logs.filterMap (fun l =>
    match l.release_time with
    | none => none
    | some rt =>
      if l.retracted = false ∧ (guild_id = none ∨ guild_id = some l.guild_id) then
        some (l.user_id, l.guild_id, rt, l.punishment_start)
      else none)

/-- data_manager.py lines 470-488, get_expired_punishments: tuples
(user_id, guild_id, release_time) of non-retracted records whose
release_time is at or before now. -/
def get_expired_punishments (now : Int) (guild_id : Option Nat) (logs : List Log) :
    List (Nat × Nat × Int) :=
  logs.filterMap (fun l =>
    match l.release_time with
    | none => none
    | some rt =>
      if rt ≤ now ∧ l.retracted = false ∧ (guild_id = none ∨ guild_id = some l.guild_id) then
        some (l.user_id, l.guild_id, rt)
      else none)

/-- The match condition of mark_punishment_completed (data_manager.py
lines 494-497): exact (user_id, guild_id, release_time) triple. -/
def matchesCompletion (user_id guild_id : Nat) (release_time : Int) (l : Log) : Bool :=
  l.user_id == user_id && l.guild_id == guild_id && l.release_time == some release_time

/-- data_manager.py lines 490-502, mark_punishment_completed: clear
release_time and stamp completed_at on the first record matching the
exact triple; False (store untouched) when none matches. -/
def mark_punishment_completed (now : Int) (user_id guild_id : Nat)
    (release_time : Int) (logs : List Log) : List Log × Bool :=
  completeFirst (matchesCompletion user_id guild_id release_time)
    (fun l => { l with release_time := none, completed_at := some now }) logs

-- =========================================================================
-- data_manager.py : temp ban store
-- =========================================================================

/-- One entry of temp_bans.json (shape built by create_temp_ban,
data_manager.py lines 661-671); unbanned_at / cancelled_early /
cancelled_by are keys added later by completion or cancellation. -/
structure TempBan where
  guild_id : Nat
  user_id : Nat
  moderator_id : Nat
  log_number : Nat
  duration : String
  unban_time : Int
  reason : String
  banned_at : Int
  unbanned : Bool
  unbanned_at : Option Int
  cancelled_early : Bool
  cancelled_by : Option Nat
deriving DecidableEq, Repr

/-- The match condition of mark_temp_ban_completed (data_manager.py lines
712-715): exact (user_id, guild_id, unban_time) triple on a ban not yet
unbanned. -/
def matchesTempBanCompletion (user_id guild_id : Nat) (unban_time : Int)
    (b : TempBan) : Bool :=
  b.user_id == user_id && b.guild_id == guild_id &&
    b.unban_time == unban_time && !b.unbanned

/-- data_manager.py lines 706-720, mark_temp_ban_completed: flag the first
matching not-yet-unbanned ban as unbanned and stamp unbanned_at; False
when none matches. -/
def mark_temp_ban_completed (now : Int) (user_id guild_id : Nat)
    (unban_time : Int) (bans : List TempBan) : List TempBan × Bool :=
  completeFirst (matchesTempBanCompletion user_id guild_id unban_time)
    (fun b => { b with unbanned := true, unbanned_at := some now }) bans

-- =========================================================================
-- data_manager.py : punishment policy (automatic duration, temp ban rules)
-- =========================================================================

/-- Python dict lookup d.get(k): first binding of an association list
(dict keys are unique, so first-binding lookup is exact). -/
def dictGet {α : Type} (d : List (String × α)) (k : String) : Option α :=
  match d with
  | [] => none
  | (k', v) :: rest => if k' = k then some v else dictGet rest k

/-- Python dict lookup with default, d.get(k, dflt). -/
def dictGetD {α : Type} (d : List (String × α)) (k : String) (dflt : α) : α :=
  (dictGet d k).getD dflt

/-- Python truthiness of "x or d" on an optional number as used in
data_manager.py lines 390-391: None and 0 both fall through to the
default. -/
def pyOrNat (x : Option Nat) (d : Nat) : Nat :=
  match x with
  | none => d
  | some n => if n = 0 then d else n

/-- The parts of punishment_config.json that calculate_automatic_punishment
reads: the base_times and per_prior_offense tables (rule number string to
duration string).  An absent or empty config file (falsy in Python) is
modelled as Option.none at the use site. -/
structure PunishmentConfig where
  base_times : List (String × String)
  per_prior_offense : List (String × String)
deriving DecidableEq, Repr

/-- data_manager.py lines 370-375: rule number extracted from the
violation text, falling back to "default"; base time looked up for it
with base_times.get("default", "2h") as the fallback. -/
def baseTimeStr (cfg : PunishmentConfig) (rule_violation : String) : String :=
  let rule_num := (extract_rule_number rule_violation).getD "default"
  dictGetD cfg.base_times rule_num (dictGetD cfg.base_times "default" "2h")

/-- data_manager.py line 382: per-prior-offense time for the rule with
per_prior.get("default", "2h") as the fallback. -/
def perPriorStr (cfg : PunishmentConfig) (rule_violation : String) : String :=
  let rule_num := (extract_rule_number rule_violation).getD "default"
  dictGetD cfg.per_prior_offense rule_num (dictGetD cfg.per_prior_offense "default" "2h")

/-- data_manager.py lines 355-397, calculate_automatic_punishment:
empty/missing config falls back to "2h"; an "indefinite" base
short-circuits; otherwise base_seconds + prior_count * per_prior_seconds
is computed (with Python "or" defaults 7200 and 0) and rendered through
format_duration.  prior_count is get_punishment_count over the store as
it is at call time (the caller computes the duration before creating the
new record, commands.py lines 565-574, so the record being created is not
counted). -/
def calculate_automatic_punishment (config : Option PunishmentConfig)
    (logs : List Log) (user_id guild_id : Nat) (rule_violation : String) : String :=
  match config with
  | none => "2h"
  | some cfg =>
    let base_time_str := baseTimeStr cfg rule_violation
    if pyLower base_time_str = "indefinite" then "indefinite"
    else
      let per_prior_str := perPriorStr cfg rule_violation
      let prior_count := get_punishment_count user_id guild_id logs
      let base_seconds := pyOrNat (parse_time_duration base_time_str) 7200
      let per_prior_seconds := pyOrNat (parse_time_duration per_prior_str) 0
      let total_seconds := base_seconds + prior_count * per_prior_seconds
      format_duration (some total_seconds)

/-- One value of the temp_ban_rules table in punishment_config.json; all
keys are optional since check_temp_ban_applicable reads them with .get. -/
structure TempBanRuleInfo where
  description : Option String
  duration : Option String
  trigger : Option String
deriving DecidableEq, Repr

/-- The dict returned by check_temp_ban_applicable (data_manager.py lines
429-434 and 442-448). -/
structure TempBanSuggestion where
  rule_key : String
  description : Option String
  duration : Option String
  trigger : String
  prior_offenses : Option Nat
deriving DecidableEq, Repr

/-- data_manager.py lines 415-450, check_temp_ban_applicable: no rule
number means no suggestion; a direct entry for the rule number returns
the base suggestion immediately (before any prior-offense check); only
otherwise, with at least one prior offense and a "_continued" entry
present, the continued-offense suggestion is returned. -/
def check_temp_ban_applicable (temp_ban_rules : List (String × TempBanRuleInfo))
    (logs : List Log) (rule_violation : String) (user_id guild_id : Nat) :
    Option TempBanSuggestion :=
  match extract_rule_number rule_violation with
  | none => none
  | some rule_num =>
    match dictGet temp_ban_rules rule_num with
    | some rule_info =>
      some { rule_key := rule_num
             description := some (rule_info.description.getD
               ("§" ++ rule_num ++ " violation"))
             duration := some (rule_info.duration.getD "6mo")
             trigger := rule_info.trigger.getD "first_offense"
             prior_offenses := none }
    | none =>
      let prior_count := get_punishment_count user_id guild_id logs
      if prior_count > 0 then
        let continued_key := rule_num ++ "_continued"
        match dictGet temp_ban_rules continued_key with
        | some cinfo =>
          some { rule_key := continued_key
                 description := cinfo.description
                 duration := cinfo.duration
                 trigger := "continued"
                 prior_offenses := some prior_count }
        | none => none
      else none

-- =========================================================================
-- events.py : the in-memory reversal scheduler
-- =========================================================================

/-- One asyncio task created by bot.loop.create_task for a pending
reversal: its identity and the subject it will act on. -/
structure SchedTask where
  tid : Nat
  owner : Nat
deriving DecidableEq, Repr

/-- The in-memory scheduler state: the scheduled_removals /
scheduled_unbans dict (user id to task id, events.py lines 163 and 292),
the set of created-and-not-yet-cancelled-or-finished tasks, and a fresh
task id supply. -/
structure SchedulerState where
  handles : Nat → Option Nat
  live : List SchedTask
  nextId : Nat

/-- events.py lines 222-278, schedule_role_removal: create a task and
store its handle under the user id.  The source does NOT cancel a
pre-existing handle here; the dict entry is simply overwritten, so a
previously live task for the same user stays live. -/
def schedule_role_removal (s : SchedulerState) (user_id : Nat) : SchedulerState :=
  { handles := fun v => if v = user_id then some s.nextId else s.handles v
    live := ⟨s.nextId, user_id⟩ :: s.live
    nextId := s.nextId + 1 }

/-- events.py lines 372-374: the cancel step of schedule_temp_unban -
if the dict holds a handle for the user, cancel that task (drop it from
the live set); the dict entry itself is left in place. -/
def cancelExistingHandle (s : SchedulerState) (user_id : Nat) : SchedulerState :=
  match s.handles user_id with
  | some t => { s with live := s.live.filter (fun task => task.tid ≠ t) }
  | none => s

/-- events.py lines 297-377, schedule_temp_unban: cancel any existing
task for the user first, then create the new task and store its handle. -/
def schedule_temp_unban (s : SchedulerState) (user_id : Nat) : SchedulerState :=
  schedule_role_removal (cancelExistingHandle s user_id) user_id

/-- events.py lines 280-285, cancel_scheduled_removal: if a handle
exists, cancel its task and delete the dict entry; otherwise a no-op. -/
def cancel_scheduled_removal (s : SchedulerState) (user_id : Nat) : SchedulerState :=
  match s.handles user_id with
  | some t =>
    { handles := fun v => if v = user_id then none else s.handles v
      live := s.live.filter (fun task => task.tid ≠ t)
      nextId := s.nextId }
  | none => s

/-- Number of live (created, not cancelled, not finished) reversal tasks
for a subject. -/
def liveCount (s : SchedulerState) (user_id : Nat) : Nat :=
  (s.live.filter (fun task => task.owner == user_id)).length

/-- Well-formedness of the scheduler state: every live task is the one
the dict currently points to for its owner, task ids are fresh below
nextId, and no task id occurs twice. -/
def SchedInv (s : SchedulerState) : Prop :=
  (∀ task ∈ s.live, s.handles task.owner = some task.tid)
  ∧ (∀ task ∈ s.live, task.tid < s.nextId)
  ∧ (s.live.map SchedTask.tid).Nodup

/-- events.py line 227 (and line 304 for unbans): the sleep delay of a
fired reversal task, max(0, release_time - now). -/
def removalDelay (now release_time : Int) : Int :=
  max 0 (release_time - now)

-- =========================================================================
-- commands.py : the reduce command (lines 943-996), store-relevant slice
-- =========================================================================

/-- Outcome of the reduce command: the source replies with an error and
stops in the first three cases, and reaches cancel + re-arm only in the
ok case. -/
inductive ReduceResult where
  | invalidDuration : ReduceResult
  | notFound : ReduceResult
  | indefinite : ReduceResult
  | updateFailed : ReduceResult
  | ok : List Log → Int → ReduceResult
deriving DecidableEq, Repr

/-- commands.py lines 943-996, reduce: parse the reduction, look the log
up, refuse indefinite punishments, clamp the new release time to
max(now, current - reduction), and write it back through update_log. -/
def reduceCommand (now : Int) (logs : List Log) (log_number guild_id : Nat)
    (by_str : String) : ReduceResult :=
  match parse_time_duration by_str with
  | none => .invalidDuration
  | some reduction =>
    match get_log log_number guild_id logs with
    | none => .notFound
    | some view =>
      match view.release_time with
      | none => .indefinite
      | some current =>
        let new_release_time := max now (current - (reduction : Int))
        let r := update_log now log_number guild_id none none none none
          (some new_release_time) logs
        if r.2 then .ok r.1 new_release_time else .updateFailed

-- =========================================================================
-- Concrete fixtures used by witnesses and counterexamples
-- =========================================================================

/-- A plain active sanction: user 1, guild 1, log number 1, release at 100. -/
def sampleLog : Log :=
  { id := 1, log_number := 1, guild_id := 1, user_id := 1,
    rule_violation := "§2", description := "spam", punishment := "2h",
    release_time := some 100, punishment_start := 0, moderator_id := some 9,
    retracted := false, message_id := none, created_at := 0,
    completed_at := none, updated_at := none }

/-- A retracted sanction occupying log number 1 of guild 1. -/
def retractedLog : Log :=
  { sampleLog with retracted := true, release_time := none }

/-- A completed prior offense of user 1 in guild 1 (release already
cleared), counted by get_punishment_count. -/
def priorLog : Log :=
  { sampleLog with log_number := 2, id := 2, release_time := none }

/-- A temp ban rules table holding both a direct entry for rule 8 and a
continued-offense entry for it. -/
def sampleTempBanRules : List (String × TempBanRuleInfo) :=
  [("8", { description := some "ban evasion", duration := some "6mo",
           trigger := some "first_offense" }),
   ("8_continued", { description := some "repeated ban evasion",
                     duration := some "12mo", trigger := none })]

/-- A temp ban rules table with only the continued-offense entry. -/
def continuedOnlyRules : List (String × TempBanRuleInfo) :=
  [("2_continued", { description := some "continued spam",
                     duration := some "1mo", trigger := none })]

/-- default-rule punishment configuration: base 2h, per prior offense 2h. -/
def sampleConfig : PunishmentConfig :=
  { base_times := [("default", "2h")], per_prior_offense := [("default", "2h")] }

/-- An active temp ban of user 1 in guild 1 lifting at time 100. -/
def sampleBan : TempBan :=
  { guild_id := 1, user_id := 1, moderator_id := 9, log_number := 1,
    duration := "1w", unban_time := 100, reason := "evasion", banned_at := 0,
    unbanned := false, unbanned_at := none, cancelled_early := false,
    cancelled_by := none }

/-- The empty scheduler state (process start, before any arming). -/
def emptySched : SchedulerState :=
  { handles := fun _ => none, live := [], nextId := 0 }

-- =========================================================================
-- Helper lemmas (shared between several claims)
-- =========================================================================

theorem completeFirst_no_match {α : Type} (p : α → Bool) (upd : α → α)
    (l : List α) (h : ∀ x ∈ l, p x = false) :
    completeFirst p upd l = (l, false) := by
  induction l with
  | nil => rfl
  | cons x rest ih =>
    have hx : p x = false := h x (List.mem_cons_self x rest)
    have hrest := ih (fun y hy => h y (List.mem_cons_of_mem x hy))
    simp [completeFirst, hx, hrest]

theorem completeFirst_first_match {α : Type} (p : α → Bool) (upd : α → α)
    (pre : List α) (m : α) (post : List α)
    (hpre : ∀ x ∈ pre, p x = false) (hm : p m = true) :
    completeFirst p upd (pre ++ m :: post) = (pre ++ upd m :: post, true) := by
  induction pre with
  | nil => simp [completeFirst, hm]
  | cons x rest ih =>
    have hx : p x = false := hpre x (List.mem_cons_self x rest)
    have hrest := ih (fun y hy => hpre y (List.mem_cons_of_mem x hy))
    simp [completeFirst, hx, hrest]

theorem completeFirst_idem {α : Type} (p : α → Bool) (upd1 upd2 : α → α)
    (hup : ∀ x, p (upd1 x) = false) (l : List α)
    (h : (l.filter p).length ≤ 1) :
    completeFirst p upd2 (completeFirst p upd1 l).1
      = ((completeFirst p upd1 l).1, false) := by
  induction l with
  | nil => simp [completeFirst]
  | cons x rest ih =>
    cases hx : p x with
    | false =>
      have hlen : (rest.filter p).length ≤ 1 := by
        rw [List.filter_cons_of_neg (by simp [hx])] at h
        exact h
      have ihr := ih hlen
      simp [completeFirst, hx] at ihr ⊢
      exact ⟨by rw [ihr], by rw [ihr]⟩
    | true =>
      have hrestnil : rest.filter p = [] := by
        rw [List.filter_cons_of_pos (by simp [hx])] at h
        simp only [List.length_cons, Nat.succ_le_succ_iff, Nat.le_zero,
          List.length_eq_zero] at h
        exact h
      have hrest : ∀ y ∈ rest, p y = false := by
        intro y hy
        cases hpy : p y with
        | false => rfl
        | true =>
          exfalso
          have : y ∈ rest.filter p := List.mem_filter.mpr ⟨hy, hpy⟩
          rw [hrestnil] at this
          cases this
      have hno : ∀ y ∈ upd1 x :: rest, p y = false := by
        intro y hy
        rcases List.mem_cons.mp hy with rfl | hmem
        · exact hup x
        · exact hrest y hmem
      simp [completeFirst, hx, completeFirst_no_match p upd2 _ hno]

theorem le_foldr_max (a : Nat) (l : List Nat) (h : a ∈ l) :
    a ≤ l.foldr max 0 := by
  induction l with
  | nil => cases h
  | cons b t ih =>
    rcases List.mem_cons.mp h with rfl | hmem
    · exact le_max_left _ _
    · exact le_trans (ih hmem) (le_max_right _ _)

theorem get_log_first_match (n g : Nat) (pre : List Log) (m : Log) (post : List Log)
    (hpre : ∀ l ∈ pre, matchesLogKey n g l = false)
    (hm : matchesLogKey n g m = true) :
    get_log n g (pre ++ m :: post) = some (logView m) := by
  induction pre with
  | nil => simp [get_log, hm]
  | cons x rest ih =>
    have hx : matchesLogKey n g x = false := hpre x (List.mem_cons_self x rest)
    have hrest := ih (fun y hy => hpre y (List.mem_cons_of_mem x hy))
    simp [get_log, hx, hrest]

theorem completeFirst_snd_true {α : Type} (p : α → Bool) (upd : α → α)
    (l : List α) (h : ∃ x ∈ l, p x = true) :
    (completeFirst p upd l).2 = true := by
  induction l with
  | nil => obtain ⟨x, hx, _⟩ := h; cases hx
  | cons y rest ih =>
    cases hy : p y with
    | true => simp [completeFirst, hy]
    | false =>
      obtain ⟨x, hx, hpx⟩ := h
      rcases List.mem_cons.mp hx with rfl | hmem
      · rw [hy] at hpx; cases hpx
      · have := ih ⟨x, hmem, hpx⟩
        simp [completeFirst, hy, this]

theorem get_log_some_exists_match (n g : Nat) (l : List Log) (v : LogView)
    (h : get_log n g l = some v) :
    ∃ x ∈ l, matchesLogKey n g x = true := by
  induction l with
  | nil => cases h
  | cons x rest ih =>
    cases hx : matchesLogKey n g x with
    | true => exact ⟨x, List.mem_cons_self x rest, hx⟩
    | false =>
      rw [get_log, hx] at h
      simp at h
      obtain ⟨y, hy, hpy⟩ := ih h
      exact ⟨y, List.mem_cons_of_mem x hy, hpy⟩

theorem nodup_all_eq_length_le_one {l : List Nat} {t : Nat}
    (hn : l.Nodup) (h : ∀ x ∈ l, x = t) : l.length ≤ 1 := by
  match l with
  | [] => simp
  | [a] => simp
  | a :: b :: r =>
    exfalso
    have ha := h a (List.mem_cons_self a (b :: r))
    have hb := h b (List.mem_cons_of_mem a (List.mem_cons_self b r))
    have hne : a ∉ b :: r := (List.nodup_cons.mp hn).1
    exact hne (ha.trans hb.symm ▸ List.mem_cons_self b r)

theorem schedInv_liveCount_le_one (s : SchedulerState) (h : SchedInv s)
    (u : Nat) : liveCount s u ≤ 1 := by
  obtain ⟨h1, h2, h3⟩ := h
  unfold liveCount
  cases hs : s.handles u with
  | none =>
    have hempty : s.live.filter (fun task => task.owner == u) = [] := by
      rw [List.filter_eq_nil_iff]
      intro task ht hb
      have ho : task.owner = u := by simpa using hb
      have := h1 task ht
      rw [ho, hs] at this
      cases this
    simp [hempty]
  | some t =>
    have hsub : List.Sublist
        ((s.live.filter (fun task => task.owner == u)).map SchedTask.tid)
        (s.live.map SchedTask.tid) :=
      (List.filter_sublist _).map _
    have hnodup := h3.sublist hsub
    have hall : ∀ x ∈ (s.live.filter (fun task => task.owner == u)).map SchedTask.tid,
        x = t := by
      intro x hx
      obtain ⟨task, htask, rfl⟩ := List.mem_map.mp hx
      have hmem : task ∈ s.live := (List.mem_filter.mp htask).1
      have ho : task.owner = u := by
        have := (List.mem_filter.mp htask).2
        simpa using this
      have := h1 task hmem
      rw [ho, hs] at this
      exact (Option.some.inj this).symm
    have := nodup_all_eq_length_le_one hnodup hall
    simpa using this

theorem cancel_scheduled_removal_clears (s : SchedulerState) (h : SchedInv s)
    (u : Nat) :
    SchedInv (cancel_scheduled_removal s u)
    ∧ ∀ task ∈ (cancel_scheduled_removal s u).live, task.owner ≠ u := by
  obtain ⟨h1, h2, h3⟩ := h
  cases hs : s.handles u with
  | none =>
    simp only [cancel_scheduled_removal, hs]
    refine ⟨⟨h1, h2, h3⟩, ?_⟩
    intro task ht ho
    have := h1 task ht
    rw [ho, hs] at this
    cases this
  | some t =>
    simp only [cancel_scheduled_removal, hs]
    have hmemtid : ∀ task, task ∈ s.live.filter (fun task => task.tid ≠ t) →
        task ∈ s.live ∧ task.tid ≠ t := by
      intro task ht
      have := List.mem_filter.mp ht
      exact ⟨this.1, by simpa using this.2⟩
    refine ⟨⟨?_, ?_, ?_⟩, ?_⟩
    · intro task ht
      obtain ⟨hmem, htid⟩ := hmemtid task ht
      by_cases ho : task.owner = u
      · exfalso
        have := h1 task hmem
        rw [ho, hs] at this
        exact htid (Option.some.inj this).symm
      · simpa [ho] using h1 task hmem
    · intro task ht
      exact h2 task (hmemtid task ht).1
    · exact h3.sublist ((List.filter_sublist _).map _)
    · intro task ht ho
      obtain ⟨hmem, htid⟩ := hmemtid task ht
      have := h1 task hmem
      rw [ho, hs] at this
      exact htid (Option.some.inj this).symm

theorem cancelExistingHandle_clears (s : SchedulerState) (h : SchedInv s)
    (u : Nat) :
    SchedInv (cancelExistingHandle s u)
    ∧ ∀ task ∈ (cancelExistingHandle s u).live, task.owner ≠ u := by
  obtain ⟨h1, h2, h3⟩ := h
  cases hs : s.handles u with
  | none =>
    simp only [cancelExistingHandle, hs]
    refine ⟨⟨h1, h2, h3⟩, ?_⟩
    intro task ht ho
    have := h1 task ht
    rw [ho, hs] at this
    cases this
  | some t =>
    simp only [cancelExistingHandle, hs]
    have hmemtid : ∀ task, task ∈ s.live.filter (fun task => task.tid ≠ t) →
        task ∈ s.live ∧ task.tid ≠ t := by
      intro task ht
      have := List.mem_filter.mp ht
      exact ⟨this.1, by simpa using this.2⟩
    refine ⟨⟨?_, ?_, ?_⟩, ?_⟩
    · intro task ht
      exact h1 task (hmemtid task ht).1
    · intro task ht
      exact h2 task (hmemtid task ht).1
    · exact h3.sublist ((List.filter_sublist _).map _)
    · intro task ht ho
      obtain ⟨hmem, htid⟩ := hmemtid task ht
      have := h1 task hmem
      rw [ho, hs] at this
      exact htid (Option.some.inj this).symm

theorem arm_preserves_schedInv (s : SchedulerState) (u : Nat) (h : SchedInv s)
    (hclear : ∀ task ∈ s.live, task.owner ≠ u) :
    SchedInv (schedule_role_removal s u) := by
  obtain ⟨h1, h2, h3⟩ := h
  refine ⟨?_, ?_, ?_⟩
  · intro task ht
    simp only [schedule_role_removal] at ht ⊢
    rcases List.mem_cons.mp ht with rfl | hmem
    · simp
    · have ho : task.owner ≠ u := hclear task hmem
      simpa [ho] using h1 task hmem
  · intro task ht
    simp only [schedule_role_removal] at ht ⊢
    rcases List.mem_cons.mp ht with rfl | hmem
    · exact Nat.lt_succ_self _
    · exact Nat.lt_succ_of_lt (h2 task hmem)
  · simp only [schedule_role_removal, List.map_cons]
    rw [List.nodup_cons]
    refine ⟨?_, h3⟩
    intro hmem
    obtain ⟨task, htask, htid⟩ := List.mem_map.mp hmem
    exact absurd (h2 task htask) (by rw [htid]; exact lt_irrefl _)

-- =========================================================================
-- Claim C4 : duration formatting / parsing stability fixpoint
-- =========================================================================

/-- Claim C4 counterexample: at s = 30 the claimed stability fixpoint
fails.  format_duration renders 30 seconds as "30s", but
parse_time_duration has no seconds unit (only m/h/d/w/mo), so re-parsing
yields the None sentinel and reformatting yields "indefinite", not
"30s". -/
theorem duration_roundtrip_fails_at_30 :
    format_duration (parse_time_duration (format_duration (some 30)))
      ≠ format_duration (some 30) := by decide

/-- Claim C4 (amended): the parse-then-reformat stability fixpoint holds
for s in the claimed set with the value 30 removed, i.e. for
s in 3600, 90000, 700000, 3000000; the seconds-granularity rendering
produced for s = 30 is not parseable (see the counterexample). -/
theorem duration_roundtrip_stable_above_minute :
    format_duration (parse_time_duration (format_duration (some 3600)))
        = format_duration (some 3600)
    ∧ format_duration (parse_time_duration (format_duration (some 90000)))
        = format_duration (some 90000)
    ∧ format_duration (parse_time_duration (format_duration (some 700000)))
        = format_duration (some 700000)
    ∧ format_duration (parse_time_duration (format_duration (some 3000000)))
        = format_duration (some 3000000) := by decide

-- =========================================================================
-- Claim C8 : parse_time_duration outcome taxonomy
-- =========================================================================

/-- Claim C8 counterexample: the malformed-input outcome is NOT distinct
from the indefinite outcome.  parse_time_duration returns the same None
sentinel for garbage and for the literal "indefinite". -/
theorem malformed_and_indefinite_share_sentinel :
    parse_time_duration "not-a-duration" = none
    ∧ parse_time_duration "indefinite" = none
    ∧ parse_time_duration "not-a-duration" = parse_time_duration "indefinite" := by
  decide

/-- Claim C8 (amended): parse_time_duration returns the seconds value for
valid amount+unit tokens and returns the single None sentinel both for
the literal "indefinite" and for every malformed input (it never
raises — it is a total function).  The two None outcomes are not
distinguishable from the return value alone; callers that need the
distinction re-check the literal string, as validate_punishment_duration
does: it accepts exactly "indefinite" (case-insensitively) and the
parseable tokens. -/
theorem parse_time_duration_outcomes :
    (parse_time_duration "30m" = some 1800
      ∧ parse_time_duration "3h" = some 10800
      ∧ parse_time_duration "2d" = some 172800
      ∧ parse_time_duration "1w" = some 604800
      ∧ parse_time_duration "6mo" = some 15552000)
    ∧ parse_time_duration "indefinite" = none
    ∧ (∀ s : String, validate_punishment_duration s = false →
        parse_time_duration s = none)
    ∧ (∀ s : String, validate_punishment_duration s = true ↔
        (pyLower s = "indefinite" ∨ (parse_time_duration s).isSome = true)) := by
  refine ⟨by decide, by decide, ?_, ?_⟩
  · intro s h
    unfold validate_punishment_duration at h
    by_cases hind : pyLower s = "indefinite"
    · simp [hind] at h
    · rw [if_neg hind] at h
      exact Option.not_isSome_iff_eq_none.mp (by simp [h])
  · intro s
    unfold validate_punishment_duration
    by_cases hind : pyLower s = "indefinite"
    · simp [hind]
    · simp [hind]

/-- Witness for the amended C8 theorem at a concrete malformed input. -/
theorem parse_time_duration_outcomes_witness :
    validate_punishment_duration "bogus" = false
    ∧ parse_time_duration "bogus" = none :=
  ⟨by decide, parse_time_duration_outcomes.2.2.1 "bogus" (by decide)⟩

-- =========================================================================
-- Claim C5 : calculate_automatic_punishment formula
-- =========================================================================

/-- The non-indefinite branch of calculate_automatic_punishment computes
base + prior_count * per_offense seconds and renders the sum. -/
theorem calcAuto_formula (cfg : PunishmentConfig) (logs : List Log)
    (u g : Nat) (rv : String)
    (h : pyLower (baseTimeStr cfg rv) ≠ "indefinite") :
    calculate_automatic_punishment (some cfg) logs u g rv
      = format_duration (some (pyOrNat (parse_time_duration (baseTimeStr cfg rv)) 7200
          + get_punishment_count u g logs
            * pyOrNat (parse_time_duration (perPriorStr cfg rv)) 0)) := by
  simp only [calculate_automatic_punishment]
  rw [if_neg h]

/-- Claim C5: the automatic punishment is
base(rule) + prior_offense_count * per_offense_increment(rule) seconds
(with prior_offense_count = get_punishment_count, the number of the
subject's non-retracted sanctions in the guild at call time), an
"indefinite" base short-circuits regardless of prior count, a rule absent
from both tables behaves exactly like the configured default rule, and
under base = 2h, per offense = 2h the prior counts 0, 1, 2 yield
"2h", "4h", "6h". -/
theorem calculate_automatic_punishment_spec :
    (∀ (cfg : PunishmentConfig) (logs : List Log) (u g : Nat) (rv : String),
      pyLower (baseTimeStr cfg rv) = "indefinite" →
      calculate_automatic_punishment (some cfg) logs u g rv = "indefinite")
    ∧ (∀ (cfg : PunishmentConfig) (logs : List Log) (u g : Nat) (rv : String),
      pyLower (baseTimeStr cfg rv) ≠ "indefinite" →
      calculate_automatic_punishment (some cfg) logs u g rv
        = format_duration (some (pyOrNat (parse_time_duration (baseTimeStr cfg rv)) 7200
            + get_punishment_count u g logs
              * pyOrNat (parse_time_duration (perPriorStr cfg rv)) 0)))
    ∧ (∀ (cfg : PunishmentConfig) (logs : List Log) (u g : Nat) (rv : String),
      dictGet cfg.base_times ((extract_rule_number rv).getD "default") = none →
      dictGet cfg.per_prior_offense ((extract_rule_number rv).getD "default") = none →
      calculate_automatic_punishment (some cfg) logs u g rv
        = calculate_automatic_punishment (some cfg) logs u g "")
    ∧ (∀ (cfg : PunishmentConfig) (logs : List Log) (u g : Nat) (rv : String),
      baseTimeStr cfg rv = "2h" → perPriorStr cfg rv = "2h" →
      (get_punishment_count u g logs = 0 →
        calculate_automatic_punishment (some cfg) logs u g rv = "2h")
      ∧ (get_punishment_count u g logs = 1 →
        calculate_automatic_punishment (some cfg) logs u g rv = "4h")
      ∧ (get_punishment_count u g logs = 2 →
        calculate_automatic_punishment (some cfg) logs u g rv = "6h")) := by
  refine ⟨?_, calcAuto_formula, ?_, ?_⟩
  · intro cfg logs u g rv h
    simp only [calculate_automatic_punishment]
    rw [if_pos h]
  · intro cfg logs u g rv hbn hpn
    have hb : baseTimeStr cfg rv = baseTimeStr cfg "" := by
      simp only [baseTimeStr, show extract_rule_number "" = none from rfl,
        Option.getD_none]
      unfold dictGetD
      rw [hbn]
      cases hdef : dictGet cfg.base_times "default" <;> simp
    have hp : perPriorStr cfg rv = perPriorStr cfg "" := by
      simp only [perPriorStr, show extract_rule_number "" = none from rfl,
        Option.getD_none]
      unfold dictGetD
      rw [hpn]
      cases hdef : dictGet cfg.per_prior_offense "default" <;> simp
    simp only [calculate_automatic_punishment]
    rw [hb, hp]
  · intro cfg logs u g rv hb hp
    have hne : pyLower (baseTimeStr cfg rv) ≠ "indefinite" := by
      rw [hb]; decide
    refine ⟨?_, ?_, ?_⟩ <;> intro hcount <;>
      rw [calcAuto_formula cfg logs u g rv hne, hb, hp, hcount] <;> decide

/-- Witness: default rule with base 2h and per offense 2h, one prior
offense, yields "4h". -/
theorem calculate_automatic_punishment_witness :
    baseTimeStr sampleConfig "§5" = "2h"
    ∧ calculate_automatic_punishment (some sampleConfig) [priorLog] 1 1 "§5" = "4h" :=
  ⟨by decide,
   (calculate_automatic_punishment_spec.2.2.2 sampleConfig [priorLog] 1 1 "§5"
     (by decide) (by decide)).2.1 (by decide)⟩

-- =========================================================================
-- Claim C6 : continued-offense temp ban suggestion
-- =========================================================================

/-- Claim C6 counterexample: when the escalation table holds a direct
entry for the rule as well as a "_continued" entry, a subject with one
prior offense still gets the BASE suggestion — the direct-entry check
runs first and returns before the prior-offense check is reached
(data_manager.py lines 427-434).  The claim, which quantifies over every
rule with a "_continued" entry, is false for this table. -/
theorem temp_ban_base_entry_shadows_continued :
    get_punishment_count 1 1 [priorLog] = 1
    ∧ (dictGet sampleTempBanRules "8_continued").isSome = true
    ∧ check_temp_ban_applicable sampleTempBanRules [priorLog] "§8" 1 1
        = some { rule_key := "8", description := some "ban evasion",
                 duration := some "6mo", trigger := "first_offense",
                 prior_offenses := none } := by decide

/-- Claim C6 (amended): for every rule WITHOUT a direct entry in the
escalation table, if the subject has at least one prior offense and a
"_continued" variant entry exists, check_temp_ban_applicable returns the
continued-offense suggestion; with a direct entry present the base
suggestion wins no matter the prior count (see the counterexample). -/
theorem continued_suggestion_when_no_base_entry
    (rules : List (String × TempBanRuleInfo)) (logs : List Log)
    (rv : String) (u g : Nat) (rule_num : String) (cinfo : TempBanRuleInfo)
    (hrn : extract_rule_number rv = some rule_num)
    (hbase : dictGet rules rule_num = none)
    (hprior : get_punishment_count u g logs > 0)
    (hcont : dictGet rules (rule_num ++ "_continued") = some cinfo) :
    check_temp_ban_applicable rules logs rv u g
      = some { rule_key := rule_num ++ "_continued"
               description := cinfo.description
               duration := cinfo.duration
               trigger := "continued"
               prior_offenses := some (get_punishment_count u g logs) } := by
  simp only [check_temp_ban_applicable, hrn, hbase]
  rw [if_pos hprior]
  simp only [hcont]

/-- Witness for the amended C6 theorem: table with only "2_continued",
subject with one prior offense, violation of rule 2. -/
theorem continued_suggestion_witness :
    check_temp_ban_applicable continuedOnlyRules [priorLog] "§2" 1 1
      = some { rule_key := "2_continued", description := some "continued spam",
               duration := some "1mo", trigger := "continued",
               prior_offenses := some 1 } :=
  (continued_suggestion_when_no_base_entry continuedOnlyRules [priorLog] "§2" 1 1 "2"
    { description := some "continued spam", duration := some "1mo", trigger := none }
    (by decide) (by decide) (by decide) (by decide)).trans (by decide)

-- =========================================================================
-- Claim C2 : idempotence of mark-completed
-- =========================================================================

/-- Claim C2 counterexample: idempotence fails when two stored records
share the same (user_id, guild_id, release_time) triple — a store state
nothing in create_log prevents.  The first call completes the first
matching record; the repeat call with the same arguments completes the
SECOND one, so the store after two calls differs from the store after
one. -/
theorem mark_completed_not_idempotent_on_duplicates :
    (mark_punishment_completed 7 1 1 100
        (mark_punishment_completed 6 1 1 100 [sampleLog, sampleLog]).1).1
      ≠ (mark_punishment_completed 6 1 1 100 [sampleLog, sampleLog]).1 := by decide

/-- Claim C2 (amended): whenever at most one stored record matches the
(user_id, guild_id, release_time) triple — in particular in the intended
Scheduler/sweep race on a single record — mark_punishment_completed is
idempotent: the first call clears release_time and stamps completed_at
on the matching record, and a repeat call with the same arguments is a
no-op returning False with the store unchanged; likewise for
mark_temp_ban_completed (where the unbanned flag excludes the completed
ban from re-matching).  With several records sharing the triple, each
call completes one further matching record (see the counterexample). -/
theorem mark_completed_idempotent (now1 now2 : Int) (u g : Nat) (rt ut : Int)
    (logs : List Log) (bans : List TempBan)
    (hl : (logs.filter (matchesCompletion u g rt)).length ≤ 1)
    (hb : (bans.filter (matchesTempBanCompletion u g ut)).length ≤ 1) :
    mark_punishment_completed now2 u g rt
        (mark_punishment_completed now1 u g rt logs).1
      = ((mark_punishment_completed now1 u g rt logs).1, false)
    ∧ mark_temp_ban_completed now2 u g ut
        (mark_temp_ban_completed now1 u g ut bans).1
      = ((mark_temp_ban_completed now1 u g ut bans).1, false) := by
  constructor
  · exact completeFirst_idem (matchesCompletion u g rt)
      (fun l => { l with release_time := none, completed_at := some now1 })
      (fun l => { l with release_time := none, completed_at := some now2 })
      (fun l => by simp [matchesCompletion]) logs hl
  · exact completeFirst_idem (matchesTempBanCompletion u g ut)
      (fun b => { b with unbanned := true, unbanned_at := some now1 })
      (fun b => { b with unbanned := true, unbanned_at := some now2 })
      (fun b => by simp [matchesTempBanCompletion]) bans hb

/-- Witness for the amended C2 theorem on a one-record store and a
one-ban store. -/
theorem mark_completed_idempotent_witness :
    (([sampleLog].filter (matchesCompletion 1 1 100)).length ≤ 1)
    ∧ mark_punishment_completed 7 1 1 100
        (mark_punishment_completed 6 1 1 100 [sampleLog]).1
      = ((mark_punishment_completed 6 1 1 100 [sampleLog]).1, false)
    ∧ mark_temp_ban_completed 7 1 1 100
        (mark_temp_ban_completed 6 1 1 100 [sampleBan]).1
      = ((mark_temp_ban_completed 6 1 1 100 [sampleBan]).1, false) :=
  ⟨by decide,
   (mark_completed_idempotent 6 7 1 1 100 100 [sampleLog] [sampleBan]
     (by decide) (by decide)).1,
   (mark_completed_idempotent 6 7 1 1 100 100 [sampleLog] [sampleBan]
     (by decide) (by decide)).2⟩

-- =========================================================================
-- Claim C10 : mark_punishment_completed keyed on the exact triple
-- =========================================================================

/-- Claim C10: mark_punishment_completed completes at most the FIRST
record matching the exact (user_id, guild_id, release_time) triple —
that record only gets release_time cleared and completed_at stamped,
every other record is untouched — and when no record matches the exact
triple it returns False with the store entirely unchanged. -/
theorem mark_punishment_completed_exact_triple (now : Int) (u g : Nat) (rt : Int) :
    (∀ logs : List Log, (∀ l ∈ logs, matchesCompletion u g rt l = false) →
        mark_punishment_completed now u g rt logs = (logs, false))
    ∧ (∀ (pre : List Log) (m : Log) (post : List Log),
        (∀ l ∈ pre, matchesCompletion u g rt l = false) →
        matchesCompletion u g rt m = true →
        mark_punishment_completed now u g rt (pre ++ m :: post)
          = (pre ++ { m with release_time := none, completed_at := some now }
               :: post, true)) := by
  constructor
  · intro logs h
    exact completeFirst_no_match _ _ logs h
  · intro pre m post hpre hm
    exact completeFirst_first_match _ _ pre m post hpre hm

/-- Witness for C10: a retracted record (release_time already cleared)
does not match, so the call returns False and changes nothing; a store
whose head matches gets exactly that record completed. -/
theorem mark_punishment_completed_exact_triple_witness :
    mark_punishment_completed 5 1 1 100 [retractedLog] = ([retractedLog], false)
    ∧ mark_punishment_completed 5 1 1 100 [sampleLog]
      = ([{ sampleLog with release_time := none, completed_at := some 5 }], true) :=
  ⟨(mark_punishment_completed_exact_triple 5 1 1 100).1 [retractedLog] (by decide),
   (mark_punishment_completed_exact_triple 5 1 1 100).2 [] sampleLog []
     (by simp) (by decide)⟩

-- =========================================================================
-- Claim C3 : log_number allocation
-- =========================================================================

/-- Claim C3 counterexample: a retracted record does NOT keep occupying
its number.  The max used by create_log is taken over non-retracted
records only (data_manager.py lines 97-99), so with the store holding
only a retracted record with log number 1 in guild 1, create_log hands
number 1 out again, after which two non-deleted records of the guild
share log number 1. -/
theorem create_log_reuses_retracted_number :
    retractedLog.retracted = true
    ∧ retractedLog.log_number = 1
    ∧ (create_log 50 1 3 "§2" "d" "2h" none none none ⟨[retractedLog], 2⟩).2 = 1
    ∧ ((create_log 50 1 3 "§2" "d" "2h" none none none
          ⟨[retractedLog], 2⟩).1.logs.filter
        (fun l => l.log_number == 1 && l.guild_id == 1)).length = 2 := by decide

/-- Claim C3 (amended): the number create_log allocates is max + 1 over
the guild's NON-RETRACTED records, hence strictly greater than — and so
unique among — every non-retracted record of the guild.  Deleted records
are physically removed and retracted records are excluded from the max,
so numbers of deleted or retracted records can be handed out again (see
the counterexample). -/
theorem create_log_allocation (now : Int) (g u : Nat) (rv d pun : String)
    (rt ps0 : Option Int) (mid : Option Nat) (data : LogsData) :
    (create_log now g u rv d pun rt ps0 mid data).2
        = guildMaxLogNumber g data.logs + 1
    ∧ (∀ l ∈ data.logs, l.guild_id = g → l.retracted = false →
        l.log_number < (create_log now g u rv d pun rt ps0 mid data).2) := by
  constructor
  · rfl
  · intro l hl hg hr
    have hmem : l.log_number ∈ ((data.logs.filter
        (fun l => l.guild_id == g && !l.retracted)).map Log.log_number) :=
      List.mem_map.mpr ⟨l, List.mem_filter.mpr ⟨hl, by simp [hg, hr]⟩, rfl⟩
    have hle := le_foldr_max _ _ hmem
    show l.log_number < guildMaxLogNumber g data.logs + 1
    exact Nat.lt_succ_of_le hle

/-- Witness for the amended C3 theorem on a one-record store. -/
theorem create_log_allocation_witness :
    (create_log 50 1 3 "§2" "d" "2h" none none none ⟨[sampleLog], 2⟩).2 = 2
    ∧ sampleLog.log_number
        < (create_log 50 1 3 "§2" "d" "2h" none none none ⟨[sampleLog], 2⟩).2 :=
  ⟨((create_log_allocation 50 1 3 "§2" "d" "2h" none none none ⟨[sampleLog], 2⟩).1).trans
     (by decide),
   (create_log_allocation 50 1 3 "§2" "d" "2h" none none none ⟨[sampleLog], 2⟩).2
     sampleLog (by simp) rfl rfl⟩

-- =========================================================================
-- Claim C9 : retraction clears release_time and hides the record from
--            active/expired queries while keeping it retrievable
-- =========================================================================

/-- Claim C9: retracting the (first) record matching (log_number,
guild_id) sets retracted, clears release_time and stamps updated_at; the
record stays retrievable through get_log with every other projected
field unchanged; and both get_active_punishments and
get_expired_punishments of the new store coincide with the queries over
the store with that record removed — the retracted record contributes
nothing. -/
theorem retract_log_spec (now : Int) (n g : Nat) (pre : List Log) (m : Log)
    (post : List Log)
    (hpre : ∀ l ∈ pre, matchesLogKey n g l = false)
    (hm : matchesLogKey n g m = true) :
    (retract_log now n g true (pre ++ m :: post)).1
        = pre ++ { m with
                     retracted := true
                     release_time := none
                     updated_at := some now } :: post
    ∧ get_log n g (retract_log now n g true (pre ++ m :: post)).1
        = some { logView m with release_time := none, retracted := true }
    ∧ (∀ gq, get_active_punishments gq (retract_log now n g true (pre ++ m :: post)).1
        = get_active_punishments gq (pre ++ post))
    ∧ (∀ now2 gq,
        get_expired_punishments now2 gq (retract_log now n g true (pre ++ m :: post)).1
          = get_expired_punishments now2 gq (pre ++ post)) := by
  have h2 : retract_log now n g true (pre ++ m :: post)
      = (pre ++ { m with
                    retracted := true
                    release_time := none
                    updated_at := some now } :: post, true) :=
    completeFirst_first_match _ _ pre m post hpre hm
  have hst : (retract_log now n g true (pre ++ m :: post)).1
      = pre ++ { m with
                   retracted := true
                   release_time := none
                   updated_at := some now } :: post := by rw [h2]
  refine ⟨hst, ?_, ?_, ?_⟩
  · rw [hst]
    exact get_log_first_match n g pre _ post hpre hm
  · intro gq
    rw [hst]
    simp [get_active_punishments, List.filterMap_append, List.filterMap_cons]
  · intro now2 gq
    rw [hst]
    simp [get_expired_punishments, List.filterMap_append, List.filterMap_cons]

/-- Witness for C9 on a one-record store: the retracted record is still
returned by get_log (with release_time cleared) and the active query
comes back empty. -/
theorem retract_log_spec_witness :
    (retract_log 40 1 1 true [sampleLog]).1
      = [{ sampleLog with
             retracted := true
             release_time := none
             updated_at := some 40 }]
    ∧ get_log 1 1 (retract_log 40 1 1 true [sampleLog]).1
      = some { logView sampleLog with release_time := none, retracted := true }
    ∧ get_active_punishments none (retract_log 40 1 1 true [sampleLog]).1 = [] :=
  ⟨(retract_log_spec 40 1 1 [] sampleLog [] (by simp) (by decide)).1,
   (retract_log_spec 40 1 1 [] sampleLog [] (by simp) (by decide)).2.1,
   ((retract_log_spec 40 1 1 [] sampleLog [] (by simp) (by decide)).2.2.1 none).trans rfl⟩

-- =========================================================================
-- Claim C7 : reduce clamps the new release time to now
-- =========================================================================

/-- Claim C7: for a sanction with a non-null release_time, reduce writes
back release_time = max(now, current - reduction); that value is never
below now (so never in the past, and non-negative whenever now is), and
when the reduction is at least the remaining time the new release time
is exactly now, making the rearmed task's sleep delay
max(0, release_time - now) zero — immediate firing. -/
theorem reduce_clamps_release_time (now : Int) (logs : List Log) (n g : Nat)
    (bstr : String) (red : Nat) (view : LogView) (cur : Int)
    (hparse : parse_time_duration bstr = some red)
    (hget : get_log n g logs = some view)
    (hrt : view.release_time = some cur) :
    reduceCommand now logs n g bstr
      = .ok (update_log now n g none none none none
          (some (max now (cur - (red : Int)))) logs).1 (max now (cur - (red : Int)))
    ∧ now ≤ max now (cur - (red : Int))
    ∧ (0 ≤ now → 0 ≤ max now (cur - (red : Int)))
    ∧ (cur - now ≤ (red : Int) → max now (cur - (red : Int)) = now)
    ∧ (cur - now ≤ (red : Int) →
        removalDelay now (max now (cur - (red : Int))) = 0) := by
  have hupd : (update_log now n g none none none none
      (some (max now (cur - (red : Int)))) logs).2 = true := by
    obtain ⟨x, hx, hpx⟩ := get_log_some_exists_match n g logs view hget
    exact completeFirst_snd_true _ _ logs ⟨x, hx, hpx⟩
  refine ⟨?_, le_max_left _ _, ?_, ?_, ?_⟩
  · simp only [reduceCommand, hparse, hget, hrt, hupd, if_true]
  · intro h0
    exact le_trans h0 (le_max_left _ _)
  · intro hle
    exact max_eq_left (by linarith)
  · intro hle
    have hnow : max now (cur - (red : Int)) = now := max_eq_left (by linarith)
    rw [hnow, removalDelay]
    simp

/-- Witness for C7: reducing a punishment with 50 seconds remaining by
one hour clamps the stored release time to now = 50 (immediate firing,
delay 0), never a negative or past value. -/
theorem reduce_clamps_release_time_witness :
    reduceCommand 50 [sampleLog] 1 1 "1h"
      = .ok [{ sampleLog with release_time := some 50, updated_at := some 50 }] 50
    ∧ removalDelay 50 (max 50 ((100 : Int) - (3600 : Nat))) = 0 := by
  have h := reduce_clamps_release_time 50 [sampleLog] 1 1 "1h" 3600
    (logView sampleLog) 100 (by decide) (by decide) (by decide)
  constructor
  · rw [h.1]
    decide
  · exact h.2.2.2.2 (by decide)

-- =========================================================================
-- Claim C1 : at most one live reversal timer per subject
-- =========================================================================

/-- Claim C1 counterexample: schedule_role_removal does NOT first cancel
an existing handle.  Arming twice in a row for subject 1 through
schedule_role_removal — which is exactly what happens when a new
punishment is issued for a subject who already has a live timer
(commands.py lines 506 and 650 call it without any preceding cancel) —
leaves TWO live reversal tasks for that subject, so two reversal actions
can fire.  The at-most-one-live-timer invariant as claimed, with
schedule_role_removal itself doing the cancel-and-discard, is false. -/
theorem schedule_role_removal_no_cancel_two_live :
    SchedInv emptySched
    ∧ liveCount (schedule_role_removal emptySched 1) 1 = 1
    ∧ liveCount (schedule_role_removal (schedule_role_removal emptySched 1) 1) 1
        = 2 := by
  refine ⟨⟨?_, ?_, ?_⟩, rfl, rfl⟩ <;> simp [emptySched]

/-- Claim C1 (amended): schedule_temp_unban does cancel-and-discard any
existing task before arming, and the rearm paths for role removals
(extend, reduce, restart restoration) call cancel_scheduled_removal
before schedule_role_removal; both of these arming patterns preserve the
scheduler well-formedness invariant and leave at most one live reversal
timer for every subject — so extend immediately followed by a second
extend never yields two firings.  schedule_role_removal on its own,
however, does not cancel (see the counterexample). -/
theorem arm_reversal_at_most_one_live (s : SchedulerState) (h : SchedInv s)
    (u : Nat) :
    SchedInv (schedule_temp_unban s u)
    ∧ SchedInv (schedule_role_removal (cancel_scheduled_removal s u) u)
    ∧ (∀ v, liveCount (schedule_temp_unban s u) v ≤ 1)
    ∧ (∀ v, liveCount (schedule_role_removal (cancel_scheduled_removal s u) u) v ≤ 1) := by
  obtain ⟨hc1, hc2⟩ := cancelExistingHandle_clears s h u
  obtain ⟨hd1, hd2⟩ := cancel_scheduled_removal_clears s h u
  have hA : SchedInv (schedule_temp_unban s u) :=
    arm_preserves_schedInv _ u hc1 hc2
  have hB : SchedInv (schedule_role_removal (cancel_scheduled_removal s u) u) :=
    arm_preserves_schedInv _ u hd1 hd2
  exact ⟨hA, hB, fun v => schedInv_liveCount_le_one _ hA v,
    fun v => schedInv_liveCount_le_one _ hB v⟩

/-- Witness for the amended C1 theorem at the empty scheduler state. -/
theorem arm_reversal_at_most_one_live_witness :
    SchedInv emptySched
    ∧ liveCount (schedule_temp_unban emptySched 1) 1 ≤ 1
    ∧ liveCount (schedule_role_removal (cancel_scheduled_removal emptySched 1) 1) 1 ≤ 1 := by
  have hinv : SchedInv emptySched := by
    refine ⟨?_, ?_, ?_⟩ <;> simp [emptySched]
  exact ⟨hinv,
    (arm_reversal_at_most_one_live emptySched hinv 1).2.2.1 1,
    (arm_reversal_at_most_one_live emptySched hinv 1).2.2.2 1⟩
